import Mathlib

set_option maxHeartbeats 1000000
set_option maxRecDepth 100000

/-! Shallow embedding of src/app.py (sql_query_app).

Python strings are modelled as lists of characters.  The Python string and
regex operations the program uses are embedded as executable functions below,
translated from the source of app.py; the Flask request handler is embedded
as a pure function over oracles for the two external services (the hosted
completion model and the SQLite database through pandas). -/

/-- The backtick character, written numerically. -/
def bq : Char := Char.ofNat 96

/-- The single-quote character, written numerically. -/
def squote : Char := Char.ofNat 39

/-- Characters stripped by the Python str.strip method (the ASCII whitespace
characters; exotic Unicode space code points are outside this model). -/
def pyIsSpace (c : Char) : Bool :=
  c == ' ' || c == '\t' || c == '\n' || c == '\r' || c == '\x0b' || c == '\x0c'

/-- Python str.strip with no argument: remove leading and trailing whitespace. -/
def pyStrip (s : List Char) : List Char :=
  ((s.dropWhile pyIsSpace).reverse.dropWhile pyIsSpace).reverse

/-- Case-insensitive character comparison, modelling re.IGNORECASE on the
ASCII letters of the pattern. -/
def ciEq (a b : Char) : Bool := a.toLower == b.toLower

/-- Case-insensitive test that the pattern is a prefix of the text. -/
def ciIsPrefixOf : List Char → List Char → Bool
  | [], _ => true
  | _ :: _, [] => false
  | a :: as, b :: bs => ciEq a b && ciIsPrefixOf as bs

/-- The closing delimiter of the regex pattern in extract_sql: three backticks. -/
def fence : List Char := [bq, bq, bq]

/-- The opening delimiter with its tag: the literal part of the regex pattern
before the capture group, three backticks followed by sql. -/
def fenceTag : List Char := [bq, bq, bq, 's', 'q', 'l']

/-- The lazy capture group with DOTALL: starting at the current position, take
the shortest run of characters (newlines included) up to the first occurrence
of the closing fence; return the interior and what follows the closing fence,
or none when no closing fence occurs. -/
def splitAtClose : List Char → Option (List Char × List Char)
  | [] => none
  | c :: cs =>
    if List.isPrefixOf fence (c :: cs) then some ([], List.drop 2 cs)
    else
      match splitAtClose cs with
      | some (mid, rest) => some (c :: mid, rest)
      | none => none

/-- re.search of the pattern used by extract_sql with DOTALL and IGNORECASE:
scan left to right for the first position where the tagged opening fence
matches and a closing fence follows; return (group 0, group 1), the whole
matched text and the interior of the capture group. -/
def searchFence : List Char → Option (List Char × List Char)
  | [] => none
  | c :: cs =>
    if ciIsPrefixOf fenceTag (c :: cs) then
      match splitAtClose (List.drop 5 cs) with
      | some (mid, _) => some (List.take (6 + mid.length + 3) (c :: cs), mid)
      | none => searchFence cs
    else searchFence cs

/-- Inner loop of Python str.replace with an empty replacement and the
non-empty pattern o :: os: when the pattern matches at the current position,
skip it (the counter argument skips the rest of a recognised match) and
continue after it; otherwise keep the character and continue. -/
def replaceAllGo (o : Char) (os : List Char) : Nat → List Char → List Char
  | _ + 1, [] => []
  | k + 1, _ :: cs => replaceAllGo o os k cs
  | 0, [] => []
  | 0, c :: cs =>
    if List.isPrefixOf (o :: os) (c :: cs) then replaceAllGo o os os.length cs
    else c :: replaceAllGo o os 0 cs

/-- Python text.replace(old, empty): remove every (left-to-right,
non-overlapping) occurrence of old from the text. -/
def replaceAll (old s : List Char) : List Char :=
  match old with
  | [] => s
  | o :: os => replaceAllGo o os 0 s

/-- extract_sql from app.py: search for the first case-insensitive sql-tagged
fenced block; on a match, the first component is the stripped interior of the
capture group and the second is the text with every occurrence of the whole
matched block removed (Python str.replace) and then stripped; with no match,
the first component is None and the second is the stripped text. -/
def extract_sql (text : List Char) : Option (List Char) × List Char :=
  match searchFence text with
  | some (g0, g1) => (some (pyStrip g1), pyStrip (replaceAll g0 text))
  | none => (none, pyStrip text)

/-- Does the closing fence occur anywhere in the text? -/
def hasCloseAfter : List Char → Bool
  | [] => false
  | c :: cs => List.isPrefixOf fence (c :: cs) || hasCloseAfter cs

/-- Does a complete sql-tagged fenced block occur in the text: a position
where the tagged opening fence matches case-insensitively and a closing fence
occurs after it? -/
def hasSqlBlock : List Char → Bool
  | [] => false
  | c :: cs =>
    (ciIsPrefixOf fenceTag (c :: cs) && hasCloseAfter (List.drop 5 cs)) || hasSqlBlock cs

/-- Remove the first occurrence of the pattern from the text, leaving any
later occurrence in place. -/
def removeFirstOcc (p : List Char) : List Char → List Char
  | [] => []
  | c :: cs =>
    if List.isPrefixOf p (c :: cs) then List.drop p.length (c :: cs)
    else c :: removeFirstOcc p cs

/-- Modelled from the spec: the remainder described by the claim wording for
the Completion Extractor, namely the input with that (single, first) matched
block removed and the result trimmed; with no block, the trimmed input. -/
def claimRemainder (t : List Char) : List Char :=
  match searchFence t with
  | some (g0, _) => pyStrip (removeFirstOcc g0 t)
  | none => pyStrip t

/-- Number of positions of the text at which the pattern occurs (used to
state the exactly-once property of the rendered schema block). -/
def countOcc (p : List Char) : List Char → Nat
  | [] => 0
  | c :: cs => (if List.isPrefixOf p (c :: cs) then 1 else 0) + countOcc p cs

/-- Does the pattern occur contiguously anywhere in the text? -/
def occursIn (p : List Char) : List Char → Bool
  | [] => List.isPrefixOf p []
  | c :: cs => List.isPrefixOf p (c :: cs) || occursIn p cs

/-- Python str.join over a list of pieces: the pieces with the separator
between consecutive ones. -/
def joinSep (sep : List Char) : List (List Char) → List Char
  | [] => []
  | [x] => x
  | x :: y :: xs => x ++ sep ++ joinSep sep (y :: xs)

/-- A column descriptor as stored in the Schema Description: the dict with
keys name and type built by load_db_schema. -/
structure Col where
  name : List Char
  ty : List Char
deriving DecidableEq, Repr

/-- The Schema Description: the Python dict from table name to column
descriptors, modelled as an association list in insertion order. -/
abbrev Schema := List (List Char × List Col)

/-- A raw row of PRAGMA table_info output: cid, name, type, notnull flag,
default value, primary-key flag.  load_db_schema reads fields 1 and 2. -/
structure PragmaRow where
  cid : Nat
  name : List Char
  ty : List Char
  notnullFlag : Nat
  dflt : Option (List Char)
  pk : Nat

/-- The SQLite database as seen through its metadata catalog: the table
names reported by sqlite_master (type table) in order, and the PRAGMA
table_info rows reported for each table name. -/
structure Db where
  tables : List (List Char)
  tableInfo : List Char → List PragmaRow

/-- The filesystem state relevant to the schema cache: the parsed content of
db_schema.json when the file exists.  JSON serialisation of the schema is
modelled as the identity, which is faithful for this string-valued shape
(json.dump then json.load round-trips it to an equal object). -/
structure Fs where
  cache : Option Schema

/-- Result of one call to load_db_schema: the returned schema, the filesystem
state after the call, and whether the database was introspected. -/
structure LoadResult where
  schema : Schema
  fs : Fs
  introspected : Bool

/-- Python dict assignment schema[k] = v on the association list: replace the
value at an existing key in place, otherwise append the new key at the end. -/
def dictInsert (k : List Char) (v : List Col) : Schema → Schema
  | [] => [(k, v)]
  | (k1, v1) :: rest => if k1 = k then (k, v) :: rest else (k1, v1) :: dictInsert k v rest

/-- The introspection loop of load_db_schema: for each table reported by
sqlite_master, store the list of name/type pairs from PRAGMA table_info. -/
def buildSchema (db : Db) : Schema :=
  db.tables.foldl
    (fun acc t => dictInsert t ((db.tableInfo t).map fun r => Col.mk r.name r.ty) acc) []

/-- load_db_schema from app.py: when the cache file exists, deserialize and
return it; otherwise introspect the database, write the cache file, and
return the built schema. -/
def load_db_schema (db : Db) (fs : Fs) : LoadResult :=
  match fs.cache with
  | some s => ⟨s, fs, false⟩
  | none =>
    let schema := buildSchema db
    ⟨schema, ⟨some schema⟩, true⟩

/-- One line of the rendered schema block for one column: the f-string with
a leading space-hyphen-space and name, colon, space, type. -/
def renderCol (c : Col) : List Char :=
  " - ".toList ++ c.name ++ ": ".toList ++ c.ty

/-- The rendered entry for one table: the Table: header f-string with a
trailing newline, followed by the newline-join of the column lines. -/
def renderTable (t : List Char) (cols : List Col) : List Char :=
  "Table: ".toList ++ t ++ "\n".toList ++ joinSep ("\n".toList) (cols.map renderCol)

/-- schema_description from the handler: the newline-join of the rendered
table entries, in dict order. -/
def schema_description (s : Schema) : List Char :=
  joinSep ("\n".toList) (s.map fun e => renderTable e.1 e.2)

/-- Text of the SQL-generation prompt before the schema block. -/
def sqlPromptPre : List Char :=
  "\n        You are a data analyst working with a SQLite database.\n\n        Here is the database schema:\n        ".toList

/-- Text of the SQL-generation prompt between the schema block and the user
query (instruction list; the single quotes are spliced in numerically). -/
def sqlPromptMid : List Char :=
  "\n\n        Your task is to:\n        1. Convert the user".toList ++ [squote] ++
  "s natural language query into a valid SQLite SQL query.\n        2. Use only the table and column names **exactly as provided** in the schema above. Do not rename or modify them. Do not add or remove underscores or alter spacing.\n        3. For any text-based filters (such as names, categories, locations, etc.), use case-insensitive and partial matching using the pattern: LOWER(column_name) LIKE ".toList ++
  [squote] ++ "%value%".toList ++ [squote] ++
  ".\n        4. If the query implies excluding similar but different values, use NOT LIKE appropriately to filter them out.\n        5. Return only the SQL query inside a code block formatted as ```sql ... ```\n        6. After the code block, provide a brief, one-sentence natural language explanation of what the result means.\n\n        User query:\n        ".toList

/-- Text of the SQL-generation prompt after the user query. -/
def sqlPromptSuf : List Char := "\n        ".toList

/-- The first prompt of the handler: the f-string embedding the rendered
schema block and the user query. -/
def sql_prompt (sd q : List Char) : List Char :=
  sqlPromptPre ++ sd ++ sqlPromptMid ++ q ++ sqlPromptSuf

/-- Text of the summarization prompt before the user question. -/
def sumPromptPre : List Char :=
  "\n            Given the following user question:\n\n            ".toList

/-- Text of the summarization prompt between the question and the rendered
result. -/
def sumPromptMid : List Char :=
  "\n\n            And the following SQL query result:\n\n            ".toList

/-- Text of the summarization prompt after the rendered result. -/
def sumPromptSuf : List Char :=
  "\n\n            Generate a short, human-readable answer in plain English.\n            Avoid technical jargon or SQL syntax — just give a natural explanation based on the numbers, like:\n            \"There are 100 unique brokers\" or \"The average investment is ₹10,000.\"\n\n            Only include the answer sentence. Do not add any extra explanation.\n            ".toList

/-- The second prompt of the handler: the f-string embedding the user query
and the plain-text rendering of the result table. -/
def summary_prompt (q dfText : List Char) : List Char :=
  sumPromptPre ++ q ++ sumPromptMid ++ dfText ++ sumPromptSuf

/-- An exception rendered to its message string. -/
abbrev ExnMsg := List Char

/-- The except branch of the handler: the f-string wrapping the exception in
a red paragraph (the quote characters spliced in numerically). -/
def errorHtml (e : ExnMsg) : List Char :=
  "<p style=".toList ++ [squote] ++ "color:red;".toList ++ [squote] ++
  ">❌ Error: ".toList ++ e ++ "</p>".toList

/-- Modelled external behaviour: the message of the exception raised by
pandas read_sql_query when handed None instead of a SQL string; the sqlite3
cursor rejects the non-string operation before any statement reaches the
database.  The exact text is environment-dependent; the claims only need
that some exception is raised here. -/
def noneSqlMsg : ExnMsg :=
  "Execution failed on sql ".toList ++ [squote] ++ "None".toList ++ [squote] ++
  ": operation parameter must be str".toList

/-- The materialized Result Table, as the handler consumes it: its HTML
rendering df.to_html(index=False) and its plain-text rendering
df.to_string(index=False). -/
structure Df where
  htmlRepr : List Char
  textRepr : List Char
deriving DecidableEq, Repr

/-- Observable side effects of one request, in order: the schema load, each
call to the completion model with its prompt, each invocation of pandas
read_sql_query with the value of sql_code (possibly None), and each SQL
string actually executed by the database. -/
inductive Event where
  | schemaLoad : Event
  | modelCall : List Char → Event
  | sqlAttempt : Option (List Char) → Event
  | dbExec : List Char → Event
deriving DecidableEq, Repr

/-- Is the event a completion-model call? -/
def Event.isModelCall : Event → Bool
  | .modelCall _ => true
  | _ => false

/-- The template variables of render_template at the end of the handler.
The code slot is an Option: the Python variable sql_code holds the empty
string initially and may hold None after extract_sql finds no block. -/
structure Rendered where
  query : List Char
  result_html : List Char
  code : Option (List Char)
  explanation : List Char
deriving DecidableEq, Repr

/-- The rendered page together with the trace of observable side effects. -/
structure HandlerOut where
  page : Rendered
  events : List Event
deriving DecidableEq, Repr

/-- The HTTP method of the request. -/
inductive Method where
  | get : Method
  | post : Method

/-- The route handler index from app.py, as a function of the external
oracles: gen is model.generate_content composed with response.text (an
exception in either is an error value), and execDf is pandas read_sql_query
on an actual SQL string (an exception is an error value).  The schema load
at the top of the POST branch sits outside the try/except in the source, and
its own failure modes (database file unreachable, corrupt cache JSON) live
below the Fs/Db abstraction, so the run takes them as the loadErr oracle:
when loadErr is some e, load_db_schema raises e and the exception escapes
the handler unhandled (the web framework turns it into a 500 response; no
page with an inline error message is rendered), hence the whole run is an
error value.  A read_sql_query call with sql_code equal to None raises
before any SQL reaches the database; that modelled external behaviour
appears as the none branch below.  The try/except of the source shows up
as the inner error branches, each rendering the template with the variables
as they stand at the point of the exception. -/
def index (db : Db) (fs : Fs) (loadErr : Option ExnMsg)
    (gen : List Char → Except ExnMsg (List Char))
    (execDf : List Char → Except ExnMsg Df) (method : Method) (formQuery : List Char) :
    Except ExnMsg HandlerOut :=
  match method with
  | .get => .ok ⟨⟨[], [], some [], []⟩, []⟩
  | .post =>
    match loadErr with
    | some e => .error e
    | none =>
      let lr := load_db_schema db fs
      let sd := schema_description lr.schema
      let p1 := sql_prompt sd formQuery
      match gen p1 with
      | .error e => .ok ⟨⟨formQuery, [], some [], errorHtml e⟩, [.schemaLoad, .modelCall p1]⟩
      | .ok rtext =>
        match (extract_sql rtext).1 with
        | none =>
          .ok ⟨⟨formQuery, [], none, errorHtml noneSqlMsg⟩,
            [.schemaLoad, .modelCall p1, .sqlAttempt none]⟩
        | some s =>
          match execDf s with
          | .error e =>
            .ok ⟨⟨formQuery, [], some s, errorHtml e⟩,
              [.schemaLoad, .modelCall p1, .sqlAttempt (some s), .dbExec s]⟩
          | .ok df =>
            let p2 := summary_prompt formQuery df.textRepr
            match gen p2 with
            | .error e =>
              .ok ⟨⟨formQuery, df.htmlRepr, some s, errorHtml e⟩,
                [.schemaLoad, .modelCall p1, .sqlAttempt (some s), .dbExec s, .modelCall p2]⟩
            | .ok etext =>
              .ok ⟨⟨formQuery, df.htmlRepr, some s, pyStrip etext⟩,
                [.schemaLoad, .modelCall p1, .sqlAttempt (some s), .dbExec s, .modelCall p2]⟩

/-- The rendered page of a handler run, or none when the exception escaped
the handler and no page was rendered. -/
def pageOf : Except ExnMsg HandlerOut → Option Rendered
  | .ok out => some out.page
  | .error _ => none

/-- The observable side effects of a handler run that rendered a page; a run
whose exception escaped the handler is cut short at the schema load. -/
def eventsOf : Except ExnMsg HandlerOut → List Event
  | .ok out => out.events
  | .error _ => []

/-- Columns of the demonstration table, as in the end-to-end scenarios of the
spec. -/
def demoCols : List Col :=
  [⟨"id".toList, "INTEGER".toList⟩, ⟨"amount".toList, "REAL".toList⟩]

/-- A demonstration Schema Description with one table. -/
def demoSchema : Schema := [("orders".toList, demoCols)]

/-- A demonstration database oracle reporting the orders table. -/
def demoDb : Db :=
  ⟨["orders".toList], fun t =>
    if t = "orders".toList then
      [⟨0, "id".toList, "INTEGER".toList, 0, none, 1⟩,
       ⟨1, "amount".toList, "REAL".toList, 0, none, 0⟩]
    else []⟩

/-- Filesystem with no cache file. -/
def fsEmpty : Fs := ⟨none⟩

/-- Filesystem whose cache file holds the demonstration schema. -/
def fsCached : Fs := ⟨some demoSchema⟩

/-- A demonstration user question. -/
def demoQ : List Char := "What is the total amount?".toList

/-- A model completion containing a fenced SQL block. -/
def respWithBlock : List Char :=
  "Here you go:\n```sql\nSELECT SUM(amount) FROM orders;\n```\nDone.".toList

/-- The SQL extracted from respWithBlock. -/
def demoSql : List Char := "SELECT SUM(amount) FROM orders;".toList

/-- A model completion with no fenced block. -/
def respNoBlock : List Char := "I cannot produce SQL for that request.".toList

/-- A demonstration materialized result table. -/
def demoDf : Df := ⟨"<table>42</table>".toList, "42".toList⟩

/-- A completion oracle that always succeeds with a fixed response. -/
def genOk (r : List Char) : List Char → Except ExnMsg (List Char) := fun _ => .ok r

/-- A completion oracle that succeeds on the demonstration SQL prompt and
raises on any other prompt (so the second, summarization call raises). -/
def genFailSecond (r : List Char) (e : ExnMsg) : List Char → Except ExnMsg (List Char) :=
  fun p => if p = sql_prompt (schema_description demoSchema) demoQ then .ok r else .error e

/-- A database oracle whose execution always raises. -/
def execFail (e : ExnMsg) : List Char → Except ExnMsg Df := fun _ => .error e

/-- A database oracle whose execution always succeeds with a fixed table. -/
def execOk (df : Df) : List Char → Except ExnMsg Df := fun _ => .ok df

/-- A demonstration SQL-execution error message. -/
def eSyntax : ExnMsg := "Execution failed on sql: syntax error".toList

/-- A demonstration completion-service error message. -/
def eQuota : ExnMsg := "429 Resource has been exhausted".toList

/-- When no closing fence occurs in the text, the lazy group scan fails. -/
lemma splitAtClose_eq_none (s : List Char) (h : hasCloseAfter s = false) :
    splitAtClose s = none := by
  induction s with
  | nil => rfl
  | cons c cs ih =>
    simp only [hasCloseAfter, Bool.or_eq_false_iff] at h
    simp [splitAtClose, h.1, ih h.2]

/-- When no complete sql-tagged block occurs in the text, the regex search
fails. -/
lemma searchFence_eq_none (t : List Char) (h : hasSqlBlock t = false) :
    searchFence t = none := by
  induction t with
  | nil => rfl
  | cons c cs ih =>
    simp only [hasSqlBlock, Bool.or_eq_false_iff, Bool.and_eq_false_iff] at h
    rcases h.1 with hp | hc
    · simp [searchFence, hp, ih h.2]
    · by_cases hp : ciIsPrefixOf fenceTag (c :: cs) = true
      · simp [searchFence, hp, splitAtClose_eq_none _ hc, ih h.2]
      · simp [searchFence, Bool.eq_false_iff.mpr hp, ih h.2]

/-- C2: on any input containing no sql-tagged fenced block, extract_sql does
not fail (it is a total function here) and returns None as the SQL together
with the whole stripped input. -/
theorem extract_sql_no_fence (t : List Char) (h : hasSqlBlock t = false) :
    extract_sql t = (none, pyStrip t) := by
  simp [extract_sql, searchFence_eq_none t h]

/-- Witness for extract_sql_no_fence at a concrete prose completion. -/
theorem extract_sql_no_fence_witness :
    hasSqlBlock respNoBlock = false ∧ extract_sql respNoBlock = (none, respNoBlock) :=
  ⟨by decide, (extract_sql_no_fence respNoBlock (by decide)).trans (by decide)⟩

/-- C10: a GET request renders the template with the question, the SQL, the
result table and the explanation all the empty string, and performs no schema
load (even a failing one cannot be reached), no model call and no SQL
execution. -/
theorem index_get (db : Db) (fs : Fs) (loadErr : Option ExnMsg)
    (gen : List Char → Except ExnMsg (List Char))
    (execDf : List Char → Except ExnMsg Df) (q : List Char) :
    index db fs loadErr gen execDf .get q = .ok ⟨⟨[], [], some [], []⟩, []⟩ := rfl

/-- C7: the schema-cache loader is idempotent: a second call without deleting
the cache file returns the same Schema Description and performs no database
introspection; and whenever the cache file exists the loader returns its
content unchanged, leaving the filesystem as it is. -/
theorem load_db_schema_idem (db : Db) (fs : Fs) :
    ((load_db_schema db (load_db_schema db fs).fs).schema = (load_db_schema db fs).schema ∧
      (load_db_schema db (load_db_schema db fs).fs).introspected = false) ∧
    ∀ s, fs.cache = some s → load_db_schema db fs = ⟨s, fs, false⟩ := by
  constructor
  · cases hfs : fs.cache with
    | some s => simp [load_db_schema, hfs]
    | none => simp [load_db_schema, hfs]
  · intro s hs
    simp [load_db_schema, hs]

/-- Witness for load_db_schema_idem on the demonstration database, both with
a present cache file and after a first cache-building call. -/
theorem load_db_schema_idem_witness :
    load_db_schema demoDb fsCached = ⟨demoSchema, fsCached, false⟩ ∧
    (load_db_schema demoDb (load_db_schema demoDb fsEmpty).fs).introspected = false :=
  ⟨(load_db_schema_idem demoDb fsCached).2 demoSchema rfl,
   (load_db_schema_idem demoDb fsEmpty).1.2⟩

/-- Dict assignment with a fresh key appends the binding at the end. -/
lemma dictInsert_append (k : List Char) (v : List Col) (s : Schema)
    (h : ∀ p ∈ s, p.1 ≠ k) : dictInsert k v s = s ++ [(k, v)] := by
  induction s with
  | nil => rfl
  | cons p rest ih =>
    obtain ⟨k1, v1⟩ := p
    have hk : k1 ≠ k := h (k1, v1) (by simp)
    simp only [dictInsert, if_neg hk, List.cons_append, List.cons.injEq, true_and]
    exact ih fun q hq => h q (by simp [hq])

/-- The introspection loop over distinct table names builds the schema as the
ordered map of the per-table column lists. -/
lemma foldl_dictInsert (g : List Char → List Col) :
    ∀ (ts : List (List Char)) (acc : Schema), ts.Nodup →
      (∀ t ∈ ts, ∀ p ∈ acc, p.1 ≠ t) →
      ts.foldl (fun a t => dictInsert t (g t) a) acc = acc ++ ts.map fun t => (t, g t) := by
  intro ts
  induction ts with
  | nil => intro acc _ _; simp
  | cons t ts ih =>
    intro acc hnd hks
    have hnd2 := List.nodup_cons.mp hnd
    rw [List.foldl_cons, dictInsert_append t (g t) acc (fun p hp => hks t (by simp) p hp),
      ih (acc ++ [(t, g t)]) hnd2.2 ?_]
    · simp
    · intro u hu p hp
      rcases List.mem_append.mp hp with h1 | h2
      · exact hks u (by simp [hu]) p h1
      · have hpt : p = (t, g t) := by simpa using h2
        subst hpt
        intro hcontra
        apply hnd2.1
        have ht : t = u := hcontra
        rwa [ht]

/-- C9: when the schema is built from the database (no cache file), every
table name and column name stored in the Schema Description is exactly the
name reported by sqlite_master and PRAGMA table_info, copied without any
renaming or normalization, in the reported order. -/
theorem load_db_schema_verbatim (db : Db) (fs : Fs) (hc : fs.cache = none)
    (hnd : db.tables.Nodup) :
    (load_db_schema db fs).schema =
      db.tables.map fun t => (t, (db.tableInfo t).map fun r => Col.mk r.name r.ty) := by
  have h := foldl_dictInsert (fun t => (db.tableInfo t).map fun r => Col.mk r.name r.ty)
    db.tables [] hnd (by intro t _ p hp; cases hp)
  simpa [load_db_schema, hc, buildSchema] using h

/-- Witness for load_db_schema_verbatim on the demonstration database. -/
theorem load_db_schema_verbatim_witness :
    (load_db_schema demoDb fsEmpty).schema = demoSchema :=
  (load_db_schema_verbatim demoDb fsEmpty rfl (by decide)).trans (by decide)

/-- C3 counterexample: a POST request whose completion has no fenced block
does reach the SQL-execution attempt (pd.read_sql_query is invoked with the
absent SQL value), so the handler does not stop before attempting SQL
execution as the claim states. -/
theorem index_missing_sql_attempt_cex :
    hasSqlBlock respNoBlock = false ∧
    Event.sqlAttempt none ∈
      eventsOf (index demoDb fsCached none (genOk respNoBlock) (execFail eSyntax) .post demoQ) := by
  decide

/-- C3 amended: on a POST request whose completion contains no fenced block,
the handler passes the absent SQL to the query executor, whose rejection of
the non-string raises before any query is executed against the database (no
dbExec event occurs), and the handler produces an error-state response in
which the rendered result table is empty. -/
theorem index_missing_sql (db : Db) (fs : Fs) (gen : List Char → Except ExnMsg (List Char))
    (execDf : List Char → Except ExnMsg Df) (q rtext : List Char)
    (h1 : gen (sql_prompt (schema_description (load_db_schema db fs).schema) q) = .ok rtext)
    (h2 : (extract_sql rtext).1 = none) :
    index db fs none gen execDf .post q =
      .ok ⟨⟨q, [], none, errorHtml noneSqlMsg⟩,
        [.schemaLoad,
         .modelCall (sql_prompt (schema_description (load_db_schema db fs).schema) q),
         .sqlAttempt none]⟩ ∧
    ∀ s, Event.dbExec s ∉ eventsOf (index db fs none gen execDf .post q) := by
  have hmain : index db fs none gen execDf .post q =
      .ok ⟨⟨q, [], none, errorHtml noneSqlMsg⟩,
        [.schemaLoad,
         .modelCall (sql_prompt (schema_description (load_db_schema db fs).schema) q),
         .sqlAttempt none]⟩ := by
    simp only [index, h1, h2]
  refine ⟨hmain, ?_⟩
  rw [hmain]
  intro s hs
  simp [eventsOf] at hs

/-- Witness for index_missing_sql on the demonstration request. -/
theorem index_missing_sql_witness :
    index demoDb fsCached none (genOk respNoBlock) (execFail eSyntax) .post demoQ =
      .ok ⟨⟨demoQ, [], none, errorHtml noneSqlMsg⟩,
        [.schemaLoad,
         .modelCall (sql_prompt (schema_description (load_db_schema demoDb fsCached).schema) demoQ),
         .sqlAttempt none]⟩ ∧
    ∀ s, Event.dbExec s ∉
      eventsOf (index demoDb fsCached none (genOk respNoBlock) (execFail eSyntax) .post demoQ) :=
  index_missing_sql demoDb fsCached (genOk respNoBlock) (execFail eSyntax) demoQ respNoBlock
    rfl (by decide)

/-- C4 counterexample: when SQL execution fails, the response carries the
error message, yet the generated SQL is still shown in its slot rather than
being replaced by the error, contradicting the claim that none of the three
outputs is shown alongside the error. -/
theorem index_error_shows_sql_cex :
    pageOf (index demoDb fsCached none (genOk respWithBlock) (execFail eSyntax) .post demoQ)
      = some ⟨demoQ, [], some demoSql, errorHtml eSyntax⟩ ∧
    demoSql ≠ [] := by
  decide

/-- C4 amended: a failure of the schema load, which sits outside the
try/except in the source, escapes the handler unhandled and no error page is
produced at all; on every POST request in which a step inside the try block
fails, the error message replaces only the summary sentence, while the
generated-SQL and result-table slots retain whatever was computed before the
failing step: both empty when the first model call fails, the SQL shown (and
the table empty) once extraction succeeded, and both shown once execution
succeeded. -/
theorem index_failure_slots (db : Db) (fs : Fs) (gen : List Char → Except ExnMsg (List Char))
    (execDf : List Char → Except ExnMsg Df) (q : List Char) :
    (∀ e, index db fs (some e) gen execDf .post q = .error e) ∧
    (∀ e, gen (sql_prompt (schema_description (load_db_schema db fs).schema) q) = .error e →
      pageOf (index db fs none gen execDf .post q) = some ⟨q, [], some [], errorHtml e⟩) ∧
    (∀ rtext, gen (sql_prompt (schema_description (load_db_schema db fs).schema) q) = .ok rtext →
      (extract_sql rtext).1 = none →
      pageOf (index db fs none gen execDf .post q) = some ⟨q, [], none, errorHtml noneSqlMsg⟩) ∧
    (∀ rtext s e,
      gen (sql_prompt (schema_description (load_db_schema db fs).schema) q) = .ok rtext →
      (extract_sql rtext).1 = some s → execDf s = .error e →
      pageOf (index db fs none gen execDf .post q) = some ⟨q, [], some s, errorHtml e⟩) ∧
    (∀ rtext s df e,
      gen (sql_prompt (schema_description (load_db_schema db fs).schema) q) = .ok rtext →
      (extract_sql rtext).1 = some s → execDf s = .ok df →
      gen (summary_prompt q df.textRepr) = .error e →
      pageOf (index db fs none gen execDf .post q) = some ⟨q, df.htmlRepr, some s, errorHtml e⟩) := by
  refine ⟨?_, ?_, ?_, ?_, ?_⟩
  · intro e
    rfl
  · intro e h1
    simp only [index, h1, pageOf]
  · intro rtext h1 h2
    simp only [index, h1, h2, pageOf]
  · intro rtext s e h1 h2 h3
    simp only [index, h1, h2, h3, pageOf]
  · intro rtext s df e h1 h2 h3 h4
    simp only [index, h1, h2, h3, h4, pageOf]

/-- Witness for index_failure_slots: one concrete request per failing step,
the schema-load failure included. -/
theorem index_failure_slots_witness :
    index demoDb fsCached (some eQuota) (genOk respWithBlock) (execOk demoDf) .post demoQ
      = .error eQuota ∧
    pageOf (index demoDb fsCached none (fun _ => .error eQuota) (execOk demoDf) .post demoQ)
      = some ⟨demoQ, [], some [], errorHtml eQuota⟩ ∧
    pageOf (index demoDb fsCached none (genOk respNoBlock) (execOk demoDf) .post demoQ)
      = some ⟨demoQ, [], none, errorHtml noneSqlMsg⟩ ∧
    pageOf (index demoDb fsCached none (genOk respWithBlock) (execFail eSyntax) .post demoQ)
      = some ⟨demoQ, [], some demoSql, errorHtml eSyntax⟩ ∧
    pageOf (index demoDb fsCached none (genFailSecond respWithBlock eQuota) (execOk demoDf)
        .post demoQ)
      = some ⟨demoQ, demoDf.htmlRepr, some demoSql, errorHtml eQuota⟩ :=
  ⟨(index_failure_slots demoDb fsCached (genOk respWithBlock) (execOk demoDf) demoQ).1 eQuota,
   (index_failure_slots demoDb fsCached (fun _ => .error eQuota) (execOk demoDf) demoQ).2.1
      eQuota rfl,
   (index_failure_slots demoDb fsCached (genOk respNoBlock) (execOk demoDf) demoQ).2.2.1
      respNoBlock rfl (by decide),
   (index_failure_slots demoDb fsCached (genOk respWithBlock) (execFail eSyntax) demoQ).2.2.2.1
      respWithBlock demoSql eSyntax rfl (by decide) rfl,
   (index_failure_slots demoDb fsCached (genFailSecond respWithBlock eQuota) (execOk demoDf)
      demoQ).2.2.2.2 respWithBlock demoSql demoDf eQuota rfl (by decide) rfl rfl⟩

/-- C5 counterexample: SQL execution succeeds and the summarization call
raises; the response carries the error message, yet the already-materialized
result table is shown in its slot, contradicting the claim that no partial
results are shown. -/
theorem index_summary_failure_cex :
    pageOf (index demoDb fsCached none (genFailSecond respWithBlock eQuota) (execOk demoDf)
        .post demoQ)
      = some ⟨demoQ, "<table>42</table>".toList, some demoSql, errorHtml eQuota⟩ ∧
    "<table>42</table>".toList ≠ [] := by
  decide

/-- C5 amended: on every POST request where SQL execution succeeds and the
subsequent summarization call raises, the handler catches the exception and
converts it to the single user-visible error message in the summary slot,
but partial results are shown: the already-materialized result table and the
generated SQL remain in the response. -/
theorem index_summary_failure (db : Db) (fs : Fs) (gen : List Char → Except ExnMsg (List Char))
    (execDf : List Char → Except ExnMsg Df) (q rtext s : List Char) (df : Df) (e : ExnMsg)
    (h1 : gen (sql_prompt (schema_description (load_db_schema db fs).schema) q) = .ok rtext)
    (h2 : (extract_sql rtext).1 = some s)
    (h3 : execDf s = .ok df)
    (h4 : gen (summary_prompt q df.textRepr) = .error e) :
    index db fs none gen execDf .post q =
      .ok ⟨⟨q, df.htmlRepr, some s, errorHtml e⟩,
        [.schemaLoad,
         .modelCall (sql_prompt (schema_description (load_db_schema db fs).schema) q),
         .sqlAttempt (some s), .dbExec s, .modelCall (summary_prompt q df.textRepr)]⟩ := by
  simp only [index, h1, h2, h3, h4]

/-- Witness for index_summary_failure on the demonstration request. -/
theorem index_summary_failure_witness :
    index demoDb fsCached none (genFailSecond respWithBlock eQuota) (execOk demoDf) .post demoQ =
      .ok ⟨⟨demoQ, demoDf.htmlRepr, some demoSql, errorHtml eQuota⟩,
        [.schemaLoad,
         .modelCall (sql_prompt (schema_description (load_db_schema demoDb fsCached).schema) demoQ),
         .sqlAttempt (some demoSql), .dbExec demoSql,
         .modelCall (summary_prompt demoQ demoDf.textRepr)]⟩ :=
  index_summary_failure demoDb fsCached (genFailSecond respWithBlock eQuota) (execOk demoDf)
    demoQ respWithBlock demoSql demoDf eQuota rfl (by decide) rfl rfl

/-- C6: on every POST request whose extracted SQL fails to execute, the
handler converts the error into the error-state response (error message in
the summary slot, empty result table) and the summarization prompt is never
sent: the trace ends at the failed execution and contains exactly one
completion-model call. -/
theorem index_exec_failure (db : Db) (fs : Fs) (gen : List Char → Except ExnMsg (List Char))
    (execDf : List Char → Except ExnMsg Df) (q rtext s : List Char) (e : ExnMsg)
    (h1 : gen (sql_prompt (schema_description (load_db_schema db fs).schema) q) = .ok rtext)
    (h2 : (extract_sql rtext).1 = some s)
    (h3 : execDf s = .error e) :
    index db fs none gen execDf .post q =
      .ok ⟨⟨q, [], some s, errorHtml e⟩,
        [.schemaLoad,
         .modelCall (sql_prompt (schema_description (load_db_schema db fs).schema) q),
         .sqlAttempt (some s), .dbExec s]⟩ ∧
    ((eventsOf (index db fs none gen execDf .post q)).countP Event.isModelCall) = 1 := by
  have hmain : index db fs none gen execDf .post q =
      .ok ⟨⟨q, [], some s, errorHtml e⟩,
        [.schemaLoad,
         .modelCall (sql_prompt (schema_description (load_db_schema db fs).schema) q),
         .sqlAttempt (some s), .dbExec s]⟩ := by
    simp only [index, h1, h2, h3]
  refine ⟨hmain, ?_⟩
  rw [hmain]
  simp [eventsOf, List.countP, List.countP.go, Event.isModelCall]

/-- Witness for index_exec_failure on the demonstration request. -/
theorem index_exec_failure_witness :
    index demoDb fsCached none (genOk respWithBlock) (execFail eSyntax) .post demoQ =
      .ok ⟨⟨demoQ, [], some demoSql, errorHtml eSyntax⟩,
        [.schemaLoad,
         .modelCall (sql_prompt (schema_description (load_db_schema demoDb fsCached).schema) demoQ),
         .sqlAttempt (some demoSql), .dbExec demoSql]⟩ ∧
    ((eventsOf (index demoDb fsCached none (genOk respWithBlock) (execFail eSyntax) .post
      demoQ)).countP Event.isModelCall) = 1 :=
  index_exec_failure demoDb fsCached (genOk respWithBlock) (execFail eSyntax) demoQ
    respWithBlock demoSql eSyntax rfl (by decide) rfl

/-- A list is a prefix of itself followed by anything. -/
lemma isPrefixOf_append_self (p r : List Char) : List.isPrefixOf p (p ++ r) = true := by
  induction p with
  | nil => simp [List.isPrefixOf]
  | cons a as ih => simp [List.isPrefixOf, ih]

/-- An occurrence survives extending the text on the left. -/
lemma occursIn_append_left (p x s : List Char) (h : occursIn p s = true) :
    occursIn p (x ++ s) = true := by
  induction x with
  | nil => rw [List.nil_append]; exact h
  | cons c cs ih =>
    simp only [List.cons_append, occursIn, Bool.or_eq_true]
    exact Or.inr ih

/-- The pattern occurs at the head of itself followed by anything. -/
lemma occursIn_here (p r : List Char) : occursIn p (p ++ r) = true := by
  cases p with
  | nil =>
    cases r with
    | nil => rfl
    | cons c cs => simp [occursIn, List.isPrefixOf]
  | cons a as =>
    simp only [List.cons_append, occursIn, Bool.or_eq_true]
    exact Or.inl (isPrefixOf_append_self (a :: as) r)

/-- Any explicit decomposition of the text around the pattern shows an
occurrence. -/
lemma occursIn_of_eq (p s u v : List Char) (h : s = u ++ (p ++ v)) : occursIn p s = true := by
  subst h
  exact occursIn_append_left p u (p ++ v) (occursIn_here p v)

/-- Every member of the joined list appears contiguously in the join, with an
explicit decomposition. -/
lemma joinSep_mem_decomp (sep : List Char) (xs : List (List Char)) (x : List Char)
    (h : x ∈ xs) : ∃ u v, joinSep sep xs = u ++ (x ++ v) := by
  induction xs with
  | nil => cases h
  | cons y ys ih =>
    rcases List.mem_cons.mp h with rfl | hmem
    · cases ys with
      | nil => exact ⟨[], [], by simp [joinSep]⟩
      | cons z zs => exact ⟨[], sep ++ joinSep sep (z :: zs), by simp [joinSep]⟩
    · obtain ⟨u, v, hu⟩ := ih hmem
      cases ys with
      | nil => cases hmem
      | cons z zs => exact ⟨y ++ sep ++ u, v, by simp [joinSep, hu]⟩

/-- C8 counterexample: two tables sharing the column name id make that column
name occur twice, not exactly once, in the rendered schema block. -/
def c8dupSchema : Schema :=
  [("t1".toList, [⟨"id".toList, "INTEGER".toList⟩]),
   ("t2".toList, [⟨"id".toList, "INTEGER".toList⟩])]

/-- C8 counterexample theorem: in the schema with tables t1 and t2, each with
the single column id, the rendered schema block contains the column name id
twice, refuting the exactly-once claim. -/
theorem schema_description_dup_cex :
    countOcc ("id".toList) (schema_description c8dupSchema) = 2 ∧
    ¬ countOcc ("id".toList) (schema_description c8dupSchema) = 1 := by
  decide

/-- C8 amended: for every Schema Description, the rendered schema block
contains every table name and every column name verbatim (at least once; a
name shared between tables recurs once per table), and the block itself is
embedded verbatim in the SQL-generation prompt. -/
theorem schema_description_names (sch : Schema) (q t : List Char) (cols : List Col)
    (hmem : (t, cols) ∈ sch) :
    occursIn t (schema_description sch) = true ∧
    (∀ c ∈ cols, occursIn c.name (schema_description sch) = true) ∧
    occursIn (schema_description sch) (sql_prompt (schema_description sch) q) = true := by
  have hmap : renderTable t cols ∈ sch.map fun e => renderTable e.1 e.2 :=
    List.mem_map.mpr ⟨(t, cols), hmem, rfl⟩
  obtain ⟨u, v, hu⟩ := joinSep_mem_decomp ("\n".toList) _ _ hmap
  refine ⟨?_, ?_, ?_⟩
  · apply occursIn_of_eq t _ (u ++ "Table: ".toList)
      ("\n".toList ++ joinSep ("\n".toList) (cols.map renderCol) ++ v)
    rw [schema_description, hu]
    simp [renderTable]
  · intro c hc
    obtain ⟨u2, v2, hu2⟩ := joinSep_mem_decomp ("\n".toList) (cols.map renderCol)
      (renderCol c) (List.mem_map.mpr ⟨c, hc, rfl⟩)
    apply occursIn_of_eq c.name _
      (u ++ ("Table: ".toList ++ t ++ "\n".toList) ++ u2 ++ " - ".toList)
      (": ".toList ++ c.ty ++ (v2 ++ v))
    rw [schema_description, hu, renderTable, hu2]
    simp [renderCol]
  · apply occursIn_of_eq _ _ sqlPromptPre (sqlPromptMid ++ q ++ sqlPromptSuf)
    simp [sql_prompt]

/-- Witness for schema_description_names on the demonstration schema. -/
theorem schema_description_names_witness :
    occursIn ("orders".toList) (schema_description demoSchema) = true ∧
    occursIn ("amount".toList) (schema_description demoSchema) = true :=
  ⟨(schema_description_names demoSchema demoQ ("orders".toList) demoCols (by decide)).1,
   (schema_description_names demoSchema demoQ ("orders".toList) demoCols (by decide)).2.1
      ⟨"amount".toList, "REAL".toList⟩ (by decide)⟩

/-- A six-character list is a literal list of its six characters. -/
lemma list_len6 (tag : List Char) (h : tag.length = 6) :
    ∃ a b c d e f, tag = [a, b, c, d, e, f] := by
  rcases tag with _ | ⟨a, _ | ⟨b, _ | ⟨c, _ | ⟨d, _ | ⟨e, _ | ⟨f, rest⟩⟩⟩⟩⟩⟩ <;>
    simp only [List.length] at h <;> try omega
  have hrest : rest = [] := List.eq_nil_of_length_eq_zero (by omega)
  exact ⟨a, b, c, d, e, f, by rw [hrest]⟩

/-- When the closing fence occurs at no position inside the interior, the
lazy group scan returns exactly the interior and the suffix after the first
closing fence. -/
lemma splitAtClose_append (mid post : List Char)
    (hmid : ∀ j, j < mid.length →
      List.isPrefixOf fence (List.drop j (mid ++ (fence ++ post))) = false) :
    splitAtClose (mid ++ (fence ++ post)) = some (mid, post) := by
  induction mid with
  | nil =>
    rw [List.nil_append,
      show fence ++ post = bq :: bq :: bq :: post from rfl, splitAtClose,
      show List.isPrefixOf fence (bq :: bq :: bq :: post) = true from by
        simp [fence, List.isPrefixOf]]
    simp
  | cons m ms ih =>
    have h0 : List.isPrefixOf fence (m :: (ms ++ (fence ++ post))) = false := by
      simpa using hmid 0 (by simp)
    rw [List.cons_append, splitAtClose, h0]
    rw [ih fun j hj => by
      simpa [List.drop_succ_cons] using hmid (j + 1) (by simpa using Nat.succ_lt_succ hj)]
    simp

/-- The leading part of the whole match has the length of the fenced block. -/
lemma take_block (a b c d e f : Char) (mid post : List Char) :
    List.take (6 + mid.length + 3) (a :: b :: c :: d :: e :: f :: (mid ++ (fence ++ post)))
      = a :: b :: c :: d :: e :: f :: (mid ++ fence) := by
  rw [show 6 + mid.length + 3 = mid.length + 3 + 1 + 1 + 1 + 1 + 1 + 1 from by omega]
  simp only [List.take_succ_cons]
  rw [show mid.length + 3 = (mid ++ fence).length from by simp [fence],
    ← List.append_assoc]
  rw [List.take_left]

/-- When the tagged opening fence first matches right after the prefix and
the closing fence first occurs right after the interior, the regex search
returns the whole block as group 0 and the interior as group 1. -/
lemma searchFence_append (pre tag mid post : List Char)
    (hlen : tag.length = 6)
    (htag : ciIsPrefixOf fenceTag tag = true)
    (hpre : ∀ i, i < pre.length →
      ciIsPrefixOf fenceTag (List.drop i (pre ++ (tag ++ (mid ++ (fence ++ post))))) = false)
    (hmid : ∀ j, j < mid.length →
      List.isPrefixOf fence (List.drop j (mid ++ (fence ++ post))) = false) :
    searchFence (pre ++ (tag ++ (mid ++ (fence ++ post)))) =
      some (tag ++ (mid ++ fence), mid) := by
  induction pre with
  | nil =>
    obtain ⟨a, b, c, d, e, f, rfl⟩ := list_len6 tag hlen
    rw [List.nil_append,
      show ([a, b, c, d, e, f] : List Char) ++ (mid ++ (fence ++ post))
        = a :: b :: c :: d :: e :: f :: (mid ++ (fence ++ post)) from rfl,
      searchFence]
    rw [show ciIsPrefixOf fenceTag (a :: b :: c :: d :: e :: f :: (mid ++ (fence ++ post)))
        = true from by
      simp only [fenceTag, ciIsPrefixOf, Bool.and_eq_true] at htag ⊢
      simpa using htag]
    rw [show List.drop 5 (b :: c :: d :: e :: f :: (mid ++ (fence ++ post)))
        = mid ++ (fence ++ post) from rfl]
    rw [splitAtClose_append mid post hmid, if_pos rfl]
    dsimp only
    rw [take_block]
    rfl
  | cons p ps ih =>
    have h0 : ciIsPrefixOf fenceTag (p :: (ps ++ (tag ++ (mid ++ (fence ++ post))))) = false := by
      simpa using hpre 0 (by simp)
    rw [List.cons_append, searchFence, h0]
    exact ih fun i hi => by
      simpa [List.drop_succ_cons] using hpre (i + 1) (by simpa using Nat.succ_lt_succ hi)

/-- C1 counterexample: on an input in which the identical block text occurs
twice, the second component of extract_sql is the input with both
occurrences removed, not with only that first block removed as the claim
states. -/
theorem extract_sql_remainder_cex :
    (extract_sql ("a```sql x```b```sql x```c".toList)).2 = "abc".toList ∧
    claimRemainder ("a```sql x```b```sql x```c".toList) = "ab```sql x```c".toList ∧
    (extract_sql ("a```sql x```b```sql x```c".toList)).2 ≠
      claimRemainder ("a```sql x```b```sql x```c".toList) := by
  decide

/-- C1 amended: on any input consisting of a prefix in which the tagged
opening fence never matches, a case-insensitive sql-tagged opening fence, an
interior in which the closing fence never occurs, a closing fence and a
suffix, extract_sql returns the trimmed interior as the SQL, and as the
remainder the input with every occurrence of the matched block text removed
(Python str.replace removes all of them, not only the first), trimmed. -/
theorem extract_sql_block (pre tag mid post : List Char)
    (hlen : tag.length = 6)
    (htag : ciIsPrefixOf fenceTag tag = true)
    (hpre : ∀ i, i < pre.length →
      ciIsPrefixOf fenceTag (List.drop i (pre ++ (tag ++ (mid ++ (fence ++ post))))) = false)
    (hmid : ∀ j, j < mid.length →
      List.isPrefixOf fence (List.drop j (mid ++ (fence ++ post))) = false) :
    extract_sql (pre ++ (tag ++ (mid ++ (fence ++ post)))) =
      (some (pyStrip mid),
       pyStrip (replaceAll (tag ++ (mid ++ fence))
         (pre ++ (tag ++ (mid ++ (fence ++ post)))))) := by
  simp only [extract_sql, searchFence_append pre tag mid post hlen htag hpre hmid]

/-- Witness for extract_sql_block at a concrete completion with an
upper-case tag. -/
theorem extract_sql_block_witness :
    extract_sql ("Answer: ".toList ++
        ("```SQL".toList ++ ("\nSELECT 1;\n".toList ++ (fence ++ " ok".toList)))) =
      (some ("SELECT 1;".toList), "Answer:  ok".toList) := by
  rw [extract_sql_block ("Answer: ".toList) ("```SQL".toList) ("\nSELECT 1;\n".toList)
    (" ok".toList) (by decide) (by decide) (by decide) (by decide)]
  decide
